import Mathlib

/-!
Verification development for the task-package builder of
`kubkon/wasi-requestor` (`src/src/main.rs`).

The core under study is the `Package` type and its three operations:

* `Package::new`                (main.rs lines 30-39)
* `Package::add_module_from_path` (main.rs lines 41-56)
* `Package::write`              (main.rs lines 58-80)

The embedding below models OS paths as byte lists, the file system as a
partial map from paths to byte contents, the `zip` crate's `ZipWriter`
over an in-memory cursor as an ordered list of named entries together
with a deterministic serialization function, and `serde_json`
serialization of the `json!` manifest value as a concrete JSON printer
with `BTreeMap` (alphabetical) key ordering, which is `serde_json`'s
default object representation.

Rust panics (`Option::unwrap` on `None`) are modelled by the dedicated
outcome `Outcome.crash`; `anyhow::Result` errors are modelled by
`Outcome.err`.
-/

/-- An operating-system path, as the list of its bytes (Unix model). -/
def OsPath : Type := List Nat

instance : DecidableEq OsPath :=
  inferInstanceAs (DecidableEq (List Nat))

/-- The file system: a partial map from paths to file contents. -/
def FS : Type := OsPath → Option (List Nat)

/-- Point update of the file-system map; `v = none` means no file at `p`. -/
def fsUpdate (fs : FS) (p : OsPath) (v : Option (List Nat)) : FS :=
  fun q => if q = p then v else fs q

/-- Split a list on every occurrence of `sep`, keeping empty segments,
as Rust's `str::split` does.  The result is always non-empty. -/
def splitSep {α : Type} [DecidableEq α] (sep : α) : List α → List (List α)
  | [] => [[]]
  | a :: as =>
    if a = sep then [] :: splitSep sep as
    else
      match splitSep sep as with
      | s :: ss => (a :: s) :: ss
      | [] => [[a]]

/-- Components of a path, in the sense of Rust's `OsPath::components` on
Unix: split on the `/` byte (0x2F), dropping empty segments and `.`
segments. -/
def pathComponents (p : OsPath) : List (List Nat) :=
  (splitSep 47 p).filter (fun c => !(c = [] : Bool) && !(c = [46] : Bool))

/-- Model of Rust's `OsPath::file_name`: the last component, unless the
path is empty, is a root, or ends in `..` (byte 46 is `.`). -/
def fileName (p : OsPath) : Option (List Nat) :=
  match (pathComponents p).getLast? with
  | none => none
  | some c => if c = [46, 46] then none else some c

/-- UTF-8 decoder (RFC 3629: rejects continuation errors, overlong
forms, surrogates and code points above 0x10FFFF), modelling
`OsStr::to_str` on a byte string. -/
def utf8DecodeList : List Nat → Option (List Char)
  | [] => some []
  | b :: bs =>
    if b ≤ 0x7F then
      match utf8DecodeList bs with
      | some cs => some (Char.ofNat b :: cs)
      | none => none
    else if 0xC2 ≤ b ∧ b ≤ 0xDF then
      match bs with
      | b1 :: bs1 =>
        if 0x80 ≤ b1 ∧ b1 ≤ 0xBF then
          match utf8DecodeList bs1 with
          | some cs => some (Char.ofNat ((b - 0xC0) * 0x40 + (b1 - 0x80)) :: cs)
          | none => none
        else none
      | [] => none
    else if 0xE0 ≤ b ∧ b ≤ 0xEF then
      match bs with
      | b1 :: b2 :: bs2 =>
        if (if b = 0xE0 then 0xA0 else 0x80) ≤ b1 ∧
           b1 ≤ (if b = 0xED then 0x9F else 0xBF) ∧
           0x80 ≤ b2 ∧ b2 ≤ 0xBF then
          match utf8DecodeList bs2 with
          | some cs =>
            some (Char.ofNat ((b - 0xE0) * 0x1000 + (b1 - 0x80) * 0x40 + (b2 - 0x80)) :: cs)
          | none => none
        else none
      | _ => none
    else if 0xF0 ≤ b ∧ b ≤ 0xF4 then
      match bs with
      | b1 :: b2 :: b3 :: bs3 =>
        if (if b = 0xF0 then 0x90 else 0x80) ≤ b1 ∧
           b1 ≤ (if b = 0xF4 then 0x8F else 0xBF) ∧
           0x80 ≤ b2 ∧ b2 ≤ 0xBF ∧ 0x80 ≤ b3 ∧ b3 ≤ 0xBF then
          match utf8DecodeList bs3 with
          | some cs =>
            some (Char.ofNat ((b - 0xF0) * 0x40000 + (b1 - 0x80) * 0x1000 +
                              (b2 - 0x80) * 0x40 + (b3 - 0x80)) :: cs)
          | none => none
        else none
      | _ => none
    else none

/-- Decode a byte string to a `String`, as `OsStr::to_str`. -/
def utf8Decode (bs : List Nat) : Option String :=
  (utf8DecodeList bs).map String.mk

/-- UTF-8 encoding of one character. -/
def utf8EncodeChar (c : Char) : List Nat :=
  let n := c.toNat
  if n ≤ 0x7F then [n]
  else if n ≤ 0x7FF then [0xC0 + n / 0x40, 0x80 + n % 0x40]
  else if n ≤ 0xFFFF then
    [0xE0 + n / 0x1000, 0x80 + (n / 0x40) % 0x40, 0x80 + n % 0x40]
  else
    [0xF0 + n / 0x40000, 0x80 + (n / 0x1000) % 0x40,
     0x80 + (n / 0x40) % 0x40, 0x80 + n % 0x40]

/-- UTF-8 bytes of a string. -/
def strBytes (s : String) : List Nat :=
  (s.data.map utf8EncodeChar).flatten

/-- Lower-case hexadecimal digit, as used by `serde_json` escapes. -/
def hexDigitChar (n : Nat) : Char :=
  if n < 10 then Char.ofNat (48 + n) else Char.ofNat (87 + n)

/-- JSON string escaping of one character, as `serde_json` performs it:
quote and backslash are escaped, the control characters BS, TAB, LF, FF,
CR get their short forms, other control characters become `\u00XX`. -/
def jsonEscapeChar (c : Char) : List Char :=
  if c = Char.ofNat 34 then [Char.ofNat 92, Char.ofNat 34]
  else if c = Char.ofNat 92 then [Char.ofNat 92, Char.ofNat 92]
  else if c = Char.ofNat 8 then [Char.ofNat 92, Char.ofNat 98]
  else if c = Char.ofNat 9 then [Char.ofNat 92, Char.ofNat 116]
  else if c = Char.ofNat 10 then [Char.ofNat 92, Char.ofNat 110]
  else if c = Char.ofNat 12 then [Char.ofNat 92, Char.ofNat 102]
  else if c = Char.ofNat 13 then [Char.ofNat 92, Char.ofNat 114]
  else if c.toNat < 32 then
    [Char.ofNat 92, Char.ofNat 117, Char.ofNat 48, Char.ofNat 48,
     hexDigitChar (c.toNat / 16), hexDigitChar (c.toNat % 16)]
  else [c]

/-- JSON escaping of a whole string. -/
def jsonEscapeStr (s : String) : String :=
  String.mk ((s.data.map jsonEscapeChar).flatten)

/-- One entry point of the manifest (`entry-points` element of the
`json!` value built in `Package::write`, main.rs lines 64-67). -/
structure EntryPoint where
  id : String
  wasmPath : String
deriving DecidableEq

/-- The manifest value built in `Package::write` (main.rs lines 61-71). -/
structure Manifest where
  id : String
  name : String
  entryPoints : List EntryPoint
  mountPoints : List (String × String)
deriving DecidableEq

/-- Model of `self.module_name.split('.').collect::<Vec<_>>()`
(main.rs line 60): Rust's `str::split('.')`. -/
def comps (s : String) : List String :=
  (splitSep (Char.ofNat 46) s.data).map String.mk

/-- The manifest constructed in `Package::write` (main.rs lines 60-71):
`id` and `name` are the constant `"custom"`, the single entry point has
id `comps[0]` (the segment of the module name before the first dot) and
wasm-path the full stored module name, and the single mount point is
`rw: workdir`. -/
def mkManifest (moduleName : String) : Manifest :=
  { id := "custom"
    name := "custom"
    entryPoints := [{ id := (comps moduleName).headI, wasmPath := moduleName }]
    mountPoints := [("rw", "workdir")] }

/-- JSON text of one entry point, `serde_json` compact form with keys in
`BTreeMap` (alphabetical) order: `id`, then `wasm-path`. -/
def entryPointJson (ep : EntryPoint) : String :=
  "\x7b\"id\":\"" ++ jsonEscapeStr ep.id ++ "\",\"wasm-path\":\"" ++
    jsonEscapeStr ep.wasmPath ++ "\"\x7d"

/-- JSON text of one mount point. -/
def mountPointJson (mp : String × String) : String :=
  "\x7b\"" ++ jsonEscapeStr mp.1 ++ "\":\"" ++ jsonEscapeStr mp.2 ++ "\"\x7d"

/-- Model of `serde_json::to_vec(&manifest)` as text: compact JSON with
object keys in `serde_json`'s default `BTreeMap` (alphabetical) order:
`entry-points`, `id`, `mount-points`, `name`. -/
def manifestJsonStr (m : Manifest) : String :=
  "\x7b\"entry-points\":[" ++ String.intercalate "," (m.entryPoints.map entryPointJson) ++
  "],\"id\":\"" ++ jsonEscapeStr m.id ++
  "\",\"mount-points\":[" ++ String.intercalate "," (m.mountPoints.map mountPointJson) ++
  "],\"name\":\"" ++ jsonEscapeStr m.name ++ "\"\x7d"

/-- The bytes `serde_json::to_vec` produces for the manifest of a given
stored module name (main.rs line 74). -/
def manifestBytes (moduleName : String) : List Nat :=
  strBytes (manifestJsonStr (mkManifest moduleName))

/-- Little-endian 32-bit field, as used in archive headers. -/
def le32 (n : Nat) : List Nat :=
  [n % 256, n / 256 % 256, n / 65536 % 256, n / 16777216 % 256]

/-- Model of `ZipWriter::finish()?.into_inner()` (main.rs line 76) with
the fixed options of `Package::new` (`CompressionMethod::Stored`,
default `FileOptions`, hence a constant timestamp): the container
serialization is a deterministic function of the ordered (name, bytes)
entry list alone.  The exact byte layout of the zip container is
behavior of the external `zip` crate; it is represented here by a
deterministic length-prefixed encoding of the ordered entries. -/
def zipSerialize (es : List (String × List Nat)) : List Nat :=
  le32 es.length ++
    (es.map (fun e => le32 (strBytes e.1).length ++ strBytes e.1 ++
                      le32 e.2.length ++ e.2)).flatten

/-- Error class of the `anyhow::Result` failures the core can return:
only `fs::read` (main.rs line 49) and `fs::write` (main.rs line 77) can
actually fail, both I/O; the zip writer targets an in-memory
`Cursor<Vec<u8>>` and `serde_json::to_vec` cannot fail on this value. -/
inductive PkgError where
  | ioError : PkgError
deriving DecidableEq

/-- Result of running a fallible, possibly panicking operation:
`crash` models a Rust panic (`Option::unwrap` on `None`), `err` an
`Err` return, `ok` a normal return. -/
inductive Outcome (α : Type) where
  | crash : Outcome α
  | err : PkgError → Outcome α
  | ok : α → Outcome α
deriving DecidableEq

/-- The `Package` struct (main.rs lines 23-27): the `ZipWriter` over an
in-memory cursor is represented by the ordered list of entries written
so far; `options` is the constant `Stored`/default pair and carries no
information; `module_name` is as in the source. -/
structure Package where
  zipEntries : List (String × List Nat)
  module_name : Option String
deriving DecidableEq

/-- `Package::new` (main.rs lines 30-39): empty archive, no module. -/
def Package.new : Package :=
  { zipEntries := [], module_name := none }

/-- `Package::add_module_from_path` (main.rs lines 41-56).
`path.file_name().unwrap().to_str().unwrap()` panics (`crash`) when the
path has no file name or its file name is not UTF-8; `fs::read` is the
only fallible step and runs before any zip mutation, so on `err` the
builder is unchanged; otherwise `start_file` plus `write` append one
entry with the file's bytes verbatim (the zip writer performs no
duplicate-name check) and `module_name` is overwritten. -/
def Package.addModuleFromPath (pkg : Package) (fs : FS) (path : OsPath) :
    Outcome Package :=
  match fileName path with
  | none => Outcome.crash
  | some nm =>
    match utf8Decode nm with
    | none => Outcome.crash
    | some moduleName =>
      match fs path with
      | none => Outcome.err PkgError.ioError
      | some contents =>
        Outcome.ok
          { zipEntries := pkg.zipEntries ++ [(moduleName, contents)]
            module_name := some moduleName }

/-- How a single `fs::write` call behaves in the environment: it either
persists the full buffer, or fails leaving some residue at the target
(`none`: no file created; `some bs`: a partial file). -/
inductive FsFault where
  | ok : FsFault
  | fail : Option (List Nat) → FsFault
deriving DecidableEq

/-- The full entry list of the finalized archive for a package whose
recorded module name is `n`: the caller-supplied entries in insertion
order, then `manifest.json` (main.rs lines 72-74). -/
def Package.sealEntries (pkg : Package) (n : String) : List (String × List Nat) :=
  pkg.zipEntries ++ [("manifest.json", manifestBytes n)]

/-- `Package::write` (main.rs lines 58-80).
`self.module_name.as_ref().unwrap()` panics (`crash`) when no module was
ever added; otherwise the manifest entry is appended, the archive is
finalized and `fs::write` persists the bytes directly to `path` — with
no digest computation, no temporary file and no cleanup: on an I/O
fault the destination holds whatever the failed write left there and
the function merely propagates the error.  On success the Rust return
value is `Ok(())`. -/
def Package.write (pkg : Package) (fs : FS) (path : OsPath) (fault : FsFault) :
    FS × Outcome Unit :=
  match pkg.module_name with
  | none => (fs, Outcome.crash)
  | some moduleName =>
    let finalized := zipSerialize (pkg.sealEntries moduleName)
    match fault with
    | FsFault.ok => (fsUpdate fs path (some finalized), Outcome.ok ())
    | FsFault.fail residue => (fsUpdate fs path residue, Outcome.err PkgError.ioError)

/-- Successive `add_module_from_path` calls starting from a given
builder: a panic or error aborts the sequence. -/
def buildFrom (pkg : Package) (fs : FS) : List OsPath → Outcome Package
  | [] => Outcome.ok pkg
  | p :: ps =>
    match pkg.addModuleFromPath fs p with
    | Outcome.ok pkg2 => buildFrom pkg2 fs ps
    | Outcome.crash => Outcome.crash
    | Outcome.err e => Outcome.err e

/-- Build a package from scratch by adding the given paths in order. -/
def buildPackage (fs : FS) (paths : List OsPath) : Outcome Package :=
  buildFrom Package.new fs paths

/-- The whole pipeline of `main` (main.rs lines 95-97): build the
package from the input paths, then seal it to `dest`. -/
def buildAndSeal (fs : FS) (paths : List OsPath) (dest : OsPath)
    (fault : FsFault) : FS × Outcome Unit :=
  match buildPackage fs paths with
  | Outcome.ok pkg => pkg.write fs dest fault
  | Outcome.crash => (fs, Outcome.crash)
  | Outcome.err e => (fs, Outcome.err e)

/-- The (name, contents) pair that a successful `add_module_from_path`
of `p` appends: defined exactly when the path has a UTF-8 file name and
the file is readable. -/
def addedEntry (fs : FS) (p : OsPath) : Option (String × List Nat) :=
  match fileName p with
  | none => none
  | some nm =>
    match utf8Decode nm with
    | none => none
    | some s =>
      match fs p with
      | none => none
      | some c => some (s, c)

/-- The entries appended by a successful sequence of adds. -/
def addedEntries (fs : FS) : List OsPath → Option (List (String × List Nat))
  | [] => some []
  | p :: ps =>
    match addedEntry fs p, addedEntries fs ps with
    | some e, some L => some (e :: L)
    | _, _ => none

/-- The first segment produced by `splitSep` is the maximal run of
elements before the first separator. -/
theorem splitSep_head {α : Type} [DecidableEq α] (sep : α) :
    ∀ l : List α,
      ∃ t, splitSep sep l = l.takeWhile (fun a => decide (a ≠ sep)) :: t := by
  intro l
  induction l with
  | nil => exact ⟨[], rfl⟩
  | cons a as ih =>
    by_cases h : a = sep
    · subst h
      exact ⟨splitSep a as, by simp [splitSep, List.takeWhile]⟩
    · obtain ⟨t, ht⟩ := ih
      exact ⟨t, by simp [splitSep, h, ht, List.takeWhile]⟩

/-- `comps[0]` is the segment of the string before the first dot. -/
theorem comps_headI (s : String) :
    (comps s).headI =
      String.mk (s.data.takeWhile (fun c => decide (c ≠ Char.ofNat 46))) := by
  obtain ⟨t, ht⟩ := splitSep_head (Char.ofNat 46) s.data
  simp [comps, ht]

/-- On a string without dots, `comps[0]` is the whole string. -/
theorem comps_headI_no_dot (s : String) (h : Char.ofNat 46 ∉ s.data) :
    (comps s).headI = s := by
  rw [comps_headI]
  have ht : s.data.takeWhile (fun c => decide (c ≠ Char.ofNat 46)) = s.data := by
    rw [List.takeWhile_eq_self_iff]
    intro a ha
    simp
    intro hc
    exact h (hc ▸ ha)
  rw [ht]

/-- Unfolding of a successful `add_module_from_path` call. -/
theorem addModuleFromPath_ok_iff (pkg : Package) (fs : FS) (p : OsPath)
    (pkg2 : Package) :
    pkg.addModuleFromPath fs p = Outcome.ok pkg2 ↔
      ∃ e, addedEntry fs p = some e ∧
        pkg2 = { zipEntries := pkg.zipEntries ++ [e], module_name := some e.1 } := by
  unfold Package.addModuleFromPath addedEntry
  cases hf : fileName p with
  | none => simp
  | some nm =>
    cases hd : utf8Decode nm with
    | none => simp [hd]
    | some s =>
      cases hc : fs p with
      | none => simp [hd, hc]
      | some c => simp [hd, hc, eq_comm]

/-- Characterization of a successful sequence of adds: it appends
exactly the `addedEntries` of the paths, and the recorded module name
is the name of the last appended entry (or the previous one when the
sequence is empty). -/
theorem buildFrom_ok (fs : FS) :
    ∀ (ps : List OsPath) (pkg0 pkg : Package),
      buildFrom pkg0 fs ps = Outcome.ok pkg →
      ∃ L, addedEntries fs ps = some L ∧
           pkg.zipEntries = pkg0.zipEntries ++ L ∧
           pkg.module_name =
             (L.map (fun e => some e.1)).getLastD pkg0.module_name ∧
           L.length = ps.length := by
  intro ps
  induction ps with
  | nil =>
    intro pkg0 pkg h
    simp [buildFrom] at h
    subst h
    exact ⟨[], rfl, by simp, by simp [List.getLastD], rfl⟩
  | cons p ps ih =>
    intro pkg0 pkg h
    simp only [buildFrom] at h
    cases ha : pkg0.addModuleFromPath fs p with
    | crash => rw [ha] at h; simp at h
    | err e => rw [ha] at h; simp at h
    | ok pkg1 =>
      rw [ha] at h
      simp only [] at h
      obtain ⟨e, he, hpkg1⟩ := (addModuleFromPath_ok_iff pkg0 fs p pkg1).mp ha
      subst hpkg1
      obtain ⟨L, hL, hz, hm, hlen⟩ := ih _ pkg h
      refine ⟨e :: L, ?_, ?_, ?_, by simp [hlen]⟩
      · simp [addedEntries, he, hL]
      · rw [hz]; simp
      · rw [hm, List.map_cons, List.getLastD_cons]

/-- On a non-empty entry list, the `getLastD` of the mapped names is the
name of the last entry. -/
theorem getLastD_map_fst :
    ∀ (L : List (String × List Nat)) (d : Option String), L ≠ [] →
      ∃ e, L.getLast? = some e ∧
        (L.map (fun x => some x.1)).getLastD d = some e.1 := by
  intro L
  induction L with
  | nil => intro d h; exact absurd rfl h
  | cons a L ih =>
    intro d _
    cases L with
    | nil => exact ⟨a, rfl, rfl⟩
    | cons b M =>
      obtain ⟨e, he, hd⟩ := ih (some a.1) (by simp)
      refine ⟨e, ?_, ?_⟩
      · rw [List.getLast?_cons_cons]; exact he
      · simpa [List.getLastD_cons] using hd

/-- `addedEntries` produces one entry per path. -/
theorem addedEntries_length (fs : FS) :
    ∀ (ps : List OsPath) (L : List (String × List Nat)),
      addedEntries fs ps = some L → L.length = ps.length := by
  intro ps
  induction ps with
  | nil => intro L h; simp [addedEntries] at h; simp [← h]
  | cons p ps ih =>
    intro L h
    simp only [addedEntries] at h
    cases he : addedEntry fs p with
    | none => rw [he] at h; simp at h
    | some e =>
      rw [he] at h
      cases hr : addedEntries fs ps with
      | none => rw [hr] at h; simp at h
      | some M =>
        rw [hr] at h
        simp at h
        subst h
        simp [ih M hr]

/-- The last entry appended by a non-empty successful sequence of adds
is the `addedEntry` of the last path. -/
theorem addedEntries_last (fs : FS) :
    ∀ (ps : List OsPath) (L : List (String × List Nat)),
      addedEntries fs ps = some L → ps ≠ [] →
      ∃ p e, ps.getLast? = some p ∧ L.getLast? = some e ∧
        addedEntry fs p = some e := by
  intro ps
  induction ps with
  | nil => intro L _ h; exact absurd rfl h
  | cons p ps ih =>
    intro L h _
    simp only [addedEntries] at h
    cases he : addedEntry fs p with
    | none => rw [he] at h; simp at h
    | some e =>
      rw [he] at h
      cases hr : addedEntries fs ps with
      | none => rw [hr] at h; simp at h
      | some M =>
        rw [hr] at h
        simp at h
        subst h
        cases ps with
        | nil =>
          simp [addedEntries] at hr
          subst hr
          exact ⟨p, e, rfl, rfl, he⟩
        | cons q qs =>
          obtain ⟨p2, e2, hp2, he2, ha2⟩ := ih M hr (by simp)
          have hM : M ≠ [] := by
            intro hM0
            rw [hM0] at he2
            simp at he2
          refine ⟨p2, e2, ?_, ?_, ha2⟩
          · rw [List.getLast?_cons_cons]; exact hp2
          · cases M with
            | nil => exact absurd rfl hM
            | cons m ms => rw [List.getLast?_cons_cons]; exact he2

/-- Unfolding of `Package::write` on a builder with a recorded module:
the finalized archive bytes are persisted at `dest` and the Rust return
value is `Ok(())`. -/
theorem write_ok_eq (pkg : Package) (fs : FS) (dest : OsPath) (n : String)
    (hn : pkg.module_name = some n) :
    pkg.write fs dest FsFault.ok =
      (fsUpdate fs dest (some (zipSerialize (pkg.sealEntries n))), Outcome.ok ()) := by
  unfold Package.write
  rw [hn]

/-- Unfolding of `Package::write` on a builder with no recorded module:
`self.module_name.as_ref().unwrap()` panics before any I/O. -/
theorem write_none_eq (pkg : Package) (fs : FS) (dest : OsPath) (fault : FsFault)
    (hn : pkg.module_name = none) :
    pkg.write fs dest fault = (fs, Outcome.crash) := by
  unfold Package.write
  rw [hn]

/-- Unfolding of `Package::write` when the single `fs::write` call
fails: the error propagates and the destination holds exactly the
residue the failed write left (no temporary file, rename or cleanup). -/
theorem write_fail_eq (pkg : Package) (fs : FS) (dest : OsPath) (n : String)
    (residue : Option (List Nat)) (hn : pkg.module_name = some n) :
    pkg.write fs dest (FsFault.fail residue) =
      (fsUpdate fs dest residue, Outcome.err PkgError.ioError) := by
  unfold Package.write
  rw [hn]

/-- Concrete fixture: source path `a/t.wasm`. -/
def pA : OsPath := strBytes "a/t.wasm"

/-- Concrete fixture: source path `b/t.wasm` (same base name as `pA`). -/
def pB : OsPath := strBytes "b/t.wasm"

/-- Concrete fixture: source path `w/task.wasm`. -/
def pW : OsPath := strBytes "w/task.wasm"

/-- Concrete fixture: source path `d/manifest.json`. -/
def pManifest : OsPath := strBytes "d/manifest.json"

/-- Concrete fixture: a path with no extractable file name. -/
def pRoot : OsPath := strBytes "/"

/-- Concrete fixture: a path whose file name is the byte 0xFF, which is
not valid UTF-8. -/
def pBad : OsPath := [97, 47, 255]

/-- Concrete fixture: an empty file system. -/
def fsEmpty : FS := fun _ => none

/-- Concrete fixture: two distinct files sharing the base name
`t.wasm`, with different contents. -/
def fsDup : FS :=
  fun q => if q = pA then some [1] else if q = pB then some [2] else none

/-- Concrete fixture: one wasm module at `w/task.wasm`. -/
def fsOne : FS := fun q => if q = pW then some [0, 97, 115, 109] else none

/-- Concrete fixture: a caller-supplied file named `manifest.json`. -/
def fsM : FS := fun q => if q = pManifest then some [9] else none

/-- The builder state after adding `w/task.wasm` from `fsOne`. -/
def pkgOne : Package :=
  { zipEntries := [("task.wasm", [0, 97, 115, 109])]
    module_name := some "task.wasm" }

/-- The builder state after adding `a/t.wasm` from `fsDup`. -/
def pkgT : Package :=
  { zipEntries := [("t.wasm", [1])], module_name := some "t.wasm" }

/-- The builder state after adding both `a/t.wasm` and `b/t.wasm`. -/
def pkgDup : Package :=
  { zipEntries := [("t.wasm", [1]), ("t.wasm", [2])]
    module_name := some "t.wasm" }

/-- The builder state after adding `d/manifest.json`. -/
def pkgM : Package :=
  { zipEntries := [("manifest.json", [9])], module_name := some "manifest.json" }

/-- Concrete fixture: destination path `out/package.zip`. -/
def destX : OsPath := strBytes "out/package.zip"

/-- Concrete fixture: destination path `tmp/package.zip`. -/
def destY : OsPath := strBytes "tmp/package.zip"

/-- C1 (corrected), counterexample: `Package::write` returns `Ok(())`,
so sealing the same builder to two different destination paths yields
literally identical return values.  A returned object that "owns the
destination path" would have to determine that path, and one that
"carries the digest" would have to carry data at all; the unit return
value does neither — no digest is computed anywhere in `write`. -/
theorem C1_counterexample :
    destX ≠ destY ∧
    (pkgOne.write fsOne destX FsFault.ok).2 =
      (pkgOne.write fsOne destY FsFault.ok).2 ∧
    (pkgOne.write fsOne destX FsFault.ok).2 = Outcome.ok () := by
  refine ⟨by decide, rfl, rfl⟩

/-- C1 (corrected), amended claim: a successful seal finalizes the
archive (caller entries plus `manifest.json`), persists exactly those
bytes at the destination path, and returns unit; no digest is computed
and no package object carrying the path or a digest is returned. -/
theorem C1_amended_thm (pkg : Package) (fs : FS) (dest : OsPath) (n : String)
    (hn : pkg.module_name = some n) :
    pkg.write fs dest FsFault.ok =
      (fsUpdate fs dest (some (zipSerialize (pkg.sealEntries n))), Outcome.ok ()) :=
  write_ok_eq pkg fs dest n hn

/-- C1 witness: the amended claim at the concrete one-module builder. -/
theorem C1_witness :
    pkgOne.module_name = some "task.wasm" ∧
    pkgOne.write fsOne destX FsFault.ok =
      (fsUpdate fsOne destX (some (zipSerialize (pkgOne.sealEntries "task.wasm"))),
       Outcome.ok ()) :=
  ⟨rfl, C1_amended_thm pkgOne fsOne destX "task.wasm" rfl⟩

/-- C2 (corrected), counterexample: sealing a builder on which no
module was ever registered panics (`self.module_name.as_ref().unwrap()`
on `None`, main.rs line 60) instead of returning a `MissingModule`
error result; no file is produced at the destination. -/
theorem C2_counterexample :
    (Package.new.write fsEmpty destX FsFault.ok).2 = Outcome.crash ∧
    (Package.new.write fsEmpty destX FsFault.ok).1 destX = none := by
  exact ⟨rfl, rfl⟩

/-- C2 (corrected), amended claim: for every builder with no module
ever registered, seal panics via `unwrap` (it does not return an error
result) and leaves the file system untouched, so no file is produced at
the destination path. -/
theorem C2_amended_thm (pkg : Package) (fs : FS) (dest : OsPath) (fault : FsFault)
    (hn : pkg.module_name = none) :
    pkg.write fs dest fault = (fs, Outcome.crash) :=
  write_none_eq pkg fs dest fault hn

/-- C2 witness: the amended claim at the fresh builder. -/
theorem C2_witness :
    Package.new.module_name = none ∧
    Package.new.write fsEmpty destX FsFault.ok = (fsEmpty, Outcome.crash) :=
  ⟨rfl, C2_amended_thm Package.new fsEmpty destX FsFault.ok rfl⟩

/-- C3 (corrected), counterexample: adding `a/t.wasm` and then
`b/t.wasm` — two files whose names resolve to the same entry name
`t.wasm` — succeeds twice with no `InvalidInput`, and the second add
grows the entry set to two entries with the same name (the zip writer
performs no duplicate check). -/
theorem C3_counterexample :
    buildPackage fsDup [pA, pB] = Outcome.ok pkgDup := by
  decide

/-- C3 (corrected), amended claim: a path lacking an extractable file
name makes `add_module_from_path` panic (not return `InvalidInput`),
and a colliding entry name is not rejected: the add succeeds and
appends a second entry with the same name, growing the entry set. -/
theorem C3_amended_thm :
    (∀ (pkg : Package) (fs : FS) (p : OsPath),
        fileName p = none → pkg.addModuleFromPath fs p = Outcome.crash) ∧
    (∀ (pkg : Package) (fs : FS) (p : OsPath) (nm : List Nat) (s : String)
        (c : List Nat),
        fileName p = some nm → utf8Decode nm = some s → fs p = some c →
        s ∈ pkg.zipEntries.map Prod.fst →
        pkg.addModuleFromPath fs p =
          Outcome.ok { zipEntries := pkg.zipEntries ++ [(s, c)]
                       module_name := some s }) := by
  constructor
  · intro pkg fs p h
    simp [Package.addModuleFromPath, h]
  · intro pkg fs p nm s c hf hd hc _
    simp [Package.addModuleFromPath, hf, hd, hc]

/-- C3 witness: both halves of the amended claim at concrete inputs:
the extension-less root path panics, and adding `b/t.wasm` to a builder
already holding an entry named `t.wasm` succeeds and appends. -/
theorem C3_witness :
    (fileName pRoot = none ∧
      pkgT.addModuleFromPath fsDup pRoot = Outcome.crash) ∧
    ("t.wasm" ∈ pkgT.zipEntries.map Prod.fst ∧
      pkgT.addModuleFromPath fsDup pB =
        Outcome.ok { zipEntries := pkgT.zipEntries ++ [("t.wasm", [2])]
                     module_name := some "t.wasm" }) :=
  ⟨⟨by decide, C3_amended_thm.1 pkgT fsDup pRoot (by decide)⟩,
   ⟨by decide,
    C3_amended_thm.2 pkgT fsDup pB (strBytes "t.wasm") "t.wasm" [2]
      (by decide) (by decide) (by decide) (by decide)⟩⟩

/-- The entry-point id rule exactly as the spec words it: the stored
file name with its last dot-delimited extension stripped; when the name
contains no dot, the whole name.  Stated only for comparison with the
code's rule. -/
def specLastExtStripped (s : String) : String :=
  if Char.ofNat 46 ∈ s.data then
    String.mk
      (((s.data.reverse.dropWhile (fun c => decide (c ≠ Char.ofNat 46))).drop 1).reverse)
  else s

/-- C4 (corrected), counterexample: for the stored module name
`task.debug.wasm`, the code's manifest id is `task` (the segment before
the first dot, `comps[0]`), while stripping the last dot-delimited
extension as the claim states would give `task.debug`. -/
theorem C4_counterexample :
    (mkManifest "task.debug.wasm").entryPoints =
      [{ id := "task", wasmPath := "task.debug.wasm" }] ∧
    specLastExtStripped "task.debug.wasm" = "task.debug" ∧
    ("task" : String) ≠ "task.debug" := by
  refine ⟨by decide, by decide, by decide⟩

/-- C4 (corrected), amended claim: `entry_points[0].id` is the segment
of the stored module name before the FIRST dot (for `task.wasm` this is
`task`; for a name with no dot it is the whole name), and
`entry_points[0].wasm_path` is the exact stored name. -/
theorem C4_amended_thm (n : String) :
    (mkManifest n).entryPoints =
      [{ id := String.mk (n.data.takeWhile (fun c => decide (c ≠ Char.ofNat 46)))
         wasmPath := n }] ∧
    (Char.ofNat 46 ∉ n.data →
      (mkManifest n).entryPoints = [{ id := n, wasmPath := n }]) := by
  constructor
  · simp [mkManifest, comps_headI]
  · intro h
    simp [mkManifest, comps_headI_no_dot n h]

/-- C4 witness: the amended claim at `task.wasm` (dotted name, id is
the part before the first dot) and at `task` (dot-free name used
as-is). -/
theorem C4_witness :
    ((mkManifest "task.wasm").entryPoints =
      [{ id := String.mk
               ("task.wasm".data.takeWhile (fun c => decide (c ≠ Char.ofNat 46)))
         wasmPath := "task.wasm" }]) ∧
    (Char.ofNat 46 ∉ ("task" : String).data ∧
      (mkManifest "task").entryPoints = [{ id := "task", wasmPath := "task" }]) :=
  ⟨(C4_amended_thm "task.wasm").1,
   ⟨by decide, (C4_amended_thm "task").2 (by decide)⟩⟩

/-- C5 (confirmed): for a fixed file system and fixed ordered input
paths, running build-and-seal twice to two different destination paths
persists byte-identical archive contents (both runs write exactly the
serialization of the same finalized entry list) and returns identical
values.  The code computes no digest at all (see C1), so no digest
value exists that could differ between the runs. -/
theorem C5_thm (fs : FS) (paths : List OsPath) (pkg : Package) (n : String)
    (d1 d2 : OsPath)
    (hb : buildPackage fs paths = Outcome.ok pkg)
    (hn : pkg.module_name = some n) :
    (buildAndSeal fs paths d1 FsFault.ok).1 d1 =
      some (zipSerialize (pkg.sealEntries n)) ∧
    (buildAndSeal fs paths d2 FsFault.ok).1 d2 =
      some (zipSerialize (pkg.sealEntries n)) ∧
    (buildAndSeal fs paths d1 FsFault.ok).1 d1 =
      (buildAndSeal fs paths d2 FsFault.ok).1 d2 ∧
    (buildAndSeal fs paths d1 FsFault.ok).2 =
      (buildAndSeal fs paths d2 FsFault.ok).2 := by
  have h1 : ∀ d, buildAndSeal fs paths d FsFault.ok =
      (fsUpdate fs d (some (zipSerialize (pkg.sealEntries n))), Outcome.ok ()) := by
    intro d
    unfold buildAndSeal
    rw [hb]
    exact write_ok_eq pkg fs d n hn
  rw [h1 d1, h1 d2]
  refine ⟨?_, ?_, ?_, rfl⟩ <;> simp [fsUpdate]

/-- C5 witness: the two-run determinism at a concrete one-module input
sealed to two different destinations. -/
theorem C5_witness :
    (buildPackage fsOne [pW] = Outcome.ok pkgOne ∧
      pkgOne.module_name = some "task.wasm") ∧
    ((buildAndSeal fsOne [pW] destX FsFault.ok).1 destX =
       some (zipSerialize (pkgOne.sealEntries "task.wasm")) ∧
     (buildAndSeal fsOne [pW] destY FsFault.ok).1 destY =
       some (zipSerialize (pkgOne.sealEntries "task.wasm")) ∧
     (buildAndSeal fsOne [pW] destX FsFault.ok).1 destX =
       (buildAndSeal fsOne [pW] destY FsFault.ok).1 destY ∧
     (buildAndSeal fsOne [pW] destX FsFault.ok).2 =
       (buildAndSeal fsOne [pW] destY FsFault.ok).2) :=
  ⟨⟨by decide, rfl⟩,
   C5_thm fsOne [pW] pkgOne "task.wasm" destX destY (by decide) rfl⟩

/-- C6 (corrected), counterexample: the caller can add a file whose
base name is `manifest.json` (the adds perform no name check), after
which the sealed archive contains the entry name `manifest.json` twice
— the caller's entry and the generated manifest — violating "appears
exactly once". -/
theorem C6_counterexample :
    buildPackage fsM [pManifest] = Outcome.ok pkgM ∧
    (pkgM.write fsM destX FsFault.ok).2 = Outcome.ok () ∧
    ((pkgM.sealEntries "manifest.json").map Prod.fst).count "manifest.json" = 2 := by
  refine ⟨by decide, rfl, by decide⟩

/-- C6 (corrected), amended claim: on every successful seal the
generated `manifest.json` is the final archive entry, positioned after
all caller-supplied entries, which keep their insertion order verbatim;
the name `manifest.json` appears exactly once provided no
caller-supplied entry already bears that name. -/
theorem C6_amended_thm (pkg : Package) (fs : FS) (dest : OsPath) (n : String)
    (hn : pkg.module_name = some n) :
    (pkg.write fs dest FsFault.ok).1 dest =
      some (zipSerialize (pkg.sealEntries n)) ∧
    (pkg.sealEntries n).getLast? = some ("manifest.json", manifestBytes n) ∧
    (pkg.sealEntries n).dropLast = pkg.zipEntries ∧
    ("manifest.json" ∉ pkg.zipEntries.map Prod.fst →
      ((pkg.sealEntries n).map Prod.fst).count "manifest.json" = 1) := by
  refine ⟨?_, ?_, ?_, ?_⟩
  · rw [write_ok_eq pkg fs dest n hn]
    simp [fsUpdate]
  · simp [Package.sealEntries]
  · simp [Package.sealEntries]
  · intro h
    have h0 : (pkg.zipEntries.map Prod.fst).count "manifest.json" = 0 :=
      List.count_eq_zero.mpr h
    simp [Package.sealEntries, List.count_append, h0]

/-- C6 witness: the amended claim at the concrete one-module builder,
whose single caller entry is not named `manifest.json`. -/
theorem C6_witness :
    pkgOne.module_name = some "task.wasm" ∧
    ((pkgOne.sealEntries "task.wasm").getLast? =
       some ("manifest.json", manifestBytes "task.wasm") ∧
     (pkgOne.sealEntries "task.wasm").dropLast = pkgOne.zipEntries) ∧
    ((pkgOne.sealEntries "task.wasm").map Prod.fst).count "manifest.json" = 1 :=
  ⟨rfl,
   ⟨(C6_amended_thm pkgOne fsOne destX "task.wasm" rfl).2.1,
    (C6_amended_thm pkgOne fsOne destX "task.wasm" rfl).2.2.1⟩,
   (C6_amended_thm pkgOne fsOne destX "task.wasm" rfl).2.2.2 (by decide)⟩

/-- C7 (corrected), counterexample: adding two files with the same base
name `t.wasm` but different bytes succeeds (see C3), and in the sealed
archive the manifest's wasm-path `t.wasm` matches TWO archive entries,
so it does not correspond to exactly one entry with the original
file's bytes. -/
theorem C7_counterexample :
    buildPackage fsDup [pA, pB] =
      Outcome.ok { zipEntries := [("t.wasm", [1]), ("t.wasm", [2])]
                   module_name := some "t.wasm" } ∧
    (mkManifest "t.wasm").entryPoints = [{ id := "t", wasmPath := "t.wasm" }] ∧
    ((pkgDup.sealEntries "t.wasm").map Prod.fst).count "t.wasm" = 2 := by
  refine ⟨by decide, by decide, by decide⟩

/-- C7 (corrected), amended claim: every successfully added file is
stored verbatim (exact bytes) under the entry name equal to its source
path's final segment; and when the caller-supplied entry names are
pairwise distinct and none of them is `manifest.json`, the manifest's
wasm-path corresponds to exactly one archive entry, which carries the
added file's exact bytes. -/
theorem C7_amended_thm :
    (∀ (pkg : Package) (fs : FS) (p : OsPath) (nm : List Nat) (s : String)
        (c : List Nat),
        fileName p = some nm → utf8Decode nm = some s → fs p = some c →
        pkg.addModuleFromPath fs p =
          Outcome.ok { zipEntries := pkg.zipEntries ++ [(s, c)]
                       module_name := some s }) ∧
    (∀ (pkg : Package) (n : String),
        pkg.module_name = some n →
        (pkg.zipEntries.map Prod.fst).Nodup →
        n ∈ pkg.zipEntries.map Prod.fst →
        n ≠ "manifest.json" →
        ((pkg.sealEntries n).map Prod.fst).count n = 1 ∧
        (∀ c, (n, c) ∈ pkg.zipEntries → (n, c) ∈ pkg.sealEntries n)) := by
  constructor
  · intro pkg fs p nm s c hf hd hc
    simp [Package.addModuleFromPath, hf, hd, hc]
  · intro pkg n _ hnd hmem hne
    constructor
    · have h1 : (pkg.zipEntries.map Prod.fst).count n = 1 :=
        List.count_eq_one_of_mem hnd hmem
      simp [Package.sealEntries, List.count_append, h1, hne]
    · intro c hcmem
      simp [Package.sealEntries]
      exact Or.inl hcmem

/-- C7 witness: both halves at concrete inputs: adding `w/task.wasm`
stores `task.wasm` with the exact bytes, and for the resulting builder
(distinct names) the wasm-path matches exactly one entry. -/
theorem C7_witness :
    (Package.new.addModuleFromPath fsOne pW =
       Outcome.ok { zipEntries := [("task.wasm", [0, 97, 115, 109])]
                    module_name := some "task.wasm" }) ∧
    (((pkgOne.sealEntries "task.wasm").map Prod.fst).count "task.wasm" = 1 ∧
     (∀ c, ("task.wasm", c) ∈ pkgOne.zipEntries →
        ("task.wasm", c) ∈ pkgOne.sealEntries "task.wasm")) :=
  ⟨C7_amended_thm.1 Package.new fsOne pW (strBytes "task.wasm") "task.wasm"
     [0, 97, 115, 109] (by decide) (by decide) (by decide),
   C7_amended_thm.2 pkgOne "task.wasm" rfl (by decide) (by decide) (by decide)⟩

/-- C8 (corrected), counterexample: when the single `fs::write` to the
destination fails after leaving partial bytes `[7]`, the operation does
fail as a whole, but the partial file remains at the destination — the
code neither writes via a temporary file with atomic rename nor deletes
on failure. -/
theorem C8_counterexample :
    (pkgOne.write fsOne destX (FsFault.fail (some [7]))).2 =
      Outcome.err PkgError.ioError ∧
    (pkgOne.write fsOne destX (FsFault.fail (some [7]))).1 destX = some [7] := by
  refine ⟨rfl, by decide⟩

/-- C8 (corrected), amended claim: when persisting fails, the seal as a
whole fails — the propagated I/O error is the only thing the caller
gets and no success value is produced — but the code writes the buffer
directly to the destination path with no temporary file, no rename and
no deletion, so the destination is left holding exactly whatever the
failed write left there. -/
theorem C8_amended_thm (pkg : Package) (fs : FS) (dest : OsPath) (n : String)
    (residue : Option (List Nat)) (hn : pkg.module_name = some n) :
    pkg.write fs dest (FsFault.fail residue) =
      (fsUpdate fs dest residue, Outcome.err PkgError.ioError) :=
  write_fail_eq pkg fs dest n residue hn

/-- C8 witness: the amended claim at the concrete one-module builder
and a failed write leaving the partial residue `[7]`. -/
theorem C8_witness :
    pkgOne.module_name = some "task.wasm" ∧
    pkgOne.write fsOne destX (FsFault.fail (some [7])) =
      (fsUpdate fsOne destX (some [7]), Outcome.err PkgError.ioError) :=
  ⟨rfl, C8_amended_thm pkgOne fsOne destX "task.wasm" (some [7]) rfl⟩

/-- C9 (confirmed, implicit): after two or more successful
`add_module_from_path` calls, the manifest has exactly one entry point,
its wasm-path is the file name of the most recently added module
(`module_name` is overwritten on every add), and every added entry —
the earlier modules included — remains in the sealed archive; an entry
whose name differs from the last module's name is referenced by no
entry point. -/
theorem C9_thm (fs : FS) (paths : List OsPath) (pkg : Package)
    (h2 : 2 ≤ paths.length)
    (hb : buildPackage fs paths = Outcome.ok pkg) :
    ∃ (n : String) (pLast : OsPath) (c : List Nat),
      pkg.module_name = some n ∧
      paths.getLast? = some pLast ∧
      addedEntry fs pLast = some (n, c) ∧
      (mkManifest n).entryPoints = [{ id := (comps n).headI, wasmPath := n }] ∧
      (mkManifest n).entryPoints.length = 1 ∧
      pkg.zipEntries.length = paths.length ∧
      pkg.zipEntries.getLast? = some (n, c) ∧
      (∀ e ∈ pkg.zipEntries, e ∈ pkg.sealEntries n) ∧
      (∀ e ∈ pkg.zipEntries, e.1 ≠ n →
        ∀ ep ∈ (mkManifest n).entryPoints, ep.wasmPath ≠ e.1) := by
  obtain ⟨L, hL, hz, hm, hlen⟩ := buildFrom_ok fs paths Package.new pkg hb
  have hzl : pkg.zipEntries = L := by simpa [Package.new] using hz
  have hpne : paths ≠ [] := by
    intro h0
    rw [h0] at h2
    simp at h2
  have hLne : L ≠ [] := by
    intro h0
    rw [h0] at hlen
    simp at hlen
    omega
  obtain ⟨e, heL, hlast⟩ := getLastD_map_fst L none hLne
  obtain ⟨p2, e2, hp2, he2, ha2⟩ := addedEntries_last fs paths L hL hpne
  have hee : e = e2 := by
    rw [heL] at he2
    exact Option.some.inj he2
  refine ⟨e.1, p2, e.2, ?_, hp2, ?_, rfl, rfl, ?_, ?_, ?_, ?_⟩
  · rw [hm]
    exact hlast
  · rw [hee]
    exact ha2
  · rw [hzl]
    exact hlen
  · rw [hzl, heL]
  · intro x hx
    simp [Package.sealEntries]
    exact Or.inl hx
  · intro x hx hne ep hep
    have hepx : ep = { id := (comps e.1).headI, wasmPath := e.1 } := by
      simpa [mkManifest] using hep
    rw [hepx]
    intro hcon
    exact hne hcon.symm

/-- C9 witness: the property at the concrete two-add sequence
`a/t.wasm` then `b/t.wasm`. -/
theorem C9_witness :
    2 ≤ ([pA, pB] : List OsPath).length ∧
    (∃ (n : String) (pLast : OsPath) (c : List Nat),
      pkgDup.module_name = some n ∧
      ([pA, pB] : List OsPath).getLast? = some pLast ∧
      addedEntry fsDup pLast = some (n, c) ∧
      (mkManifest n).entryPoints = [{ id := (comps n).headI, wasmPath := n }] ∧
      (mkManifest n).entryPoints.length = 1 ∧
      pkgDup.zipEntries.length = ([pA, pB] : List OsPath).length ∧
      pkgDup.zipEntries.getLast? = some (n, c) ∧
      (∀ e ∈ pkgDup.zipEntries, e ∈ pkgDup.sealEntries n) ∧
      (∀ e ∈ pkgDup.zipEntries, e.1 ≠ n →
        ∀ ep ∈ (mkManifest n).entryPoints, ep.wasmPath ≠ e.1)) :=
  ⟨by decide, C9_thm fsDup [pA, pB] pkgDup (by decide) (by decide)⟩

/-- C10 (confirmed, implicit): for every input path whose final
segment is absent or not valid UTF-8, `add_module_from_path` panics
(`path.file_name().unwrap().to_str().unwrap()`, main.rs lines 42-47)
rather than returning a failure result, so the operation is not total
over OS paths. -/
theorem C10_thm (pkg : Package) (fs : FS) (p : OsPath)
    (h : fileName p = none ∨ ∃ nm, fileName p = some nm ∧ utf8Decode nm = none) :
    pkg.addModuleFromPath fs p = Outcome.crash := by
  cases h with
  | inl h0 => simp [Package.addModuleFromPath, h0]
  | inr h0 =>
    obtain ⟨nm, hf, hd⟩ := h0
    simp [Package.addModuleFromPath, hf, hd]

/-- C10 witness: the path `a/<0xFF>` has the non-UTF-8 file name
`[0xFF]`, and adding it panics. -/
theorem C10_witness :
    (fileName pBad = some [255] ∧ utf8Decode [255] = none) ∧
    Package.new.addModuleFromPath fsEmpty pBad = Outcome.crash :=
  ⟨⟨by decide, by decide⟩,
   C10_thm Package.new fsEmpty pBad (Or.inr ⟨[255], by decide, by decide⟩)⟩
